import Mathlib

/-!
Verification of the SecureWatch event-ledger core against its sources:
the `sw-log` Supabase Edge Function (`supabase/functions/sw-log/index.ts`),
the ledger migrations (`20240301000001_create_sw_event_log.sql`,
`20240301000002_create_sw_event_artifacts.sql`,
`20240301000003_sw_event_log_helpers.sql`), and the debug tooling
documented in the repository README.
-/

namespace SecureWatch

mutual
/-- A JSON / JavaScript runtime value, as the Edge Function sees the fields of
a parsed request body.  `obj` carries its fields as an association list
(`Jfields`). -/
inductive Jval where
  | null : Jval
  | bool (b : Bool) : Jval
  | num (q : ℚ) : Jval
  | str (s : String) : Jval
  | obj (fields : Jfields) : Jval
deriving DecidableEq
/-- The key/value fields of a JSON object. -/
inductive Jfields where
  | nil : Jfields
  | cons (key : String) (value : Jval) (rest : Jfields) : Jfields
deriving DecidableEq
end

/-- Property access `o[k]` on an object value: the first binding of the key,
if any. -/
def Jfields.get : Jfields → String → Option Jval
  | Jfields.nil, _ => none
  | Jfields.cons k v rest, key => if k = key then some v else rest.get key

/-- `String.prototype.toLowerCase()` modelled as the simple per-character
case mapping (the only characters the handler ever lowercases are hex digits
and dashes of a UUID candidate). -/
def jsToLower (s : String) : String := String.mk (s.data.map Char.toLower)

/-- `String.prototype.trim()`: strip leading and trailing whitespace. -/
def jsTrim (s : String) : String :=
  String.mk
    (((s.data.dropWhile Char.isWhitespace).reverse.dropWhile
        Char.isWhitespace).reverse)

/-- Strict character comparison by code point. -/
def charLtB (a b : Char) : Bool := a.toNat < b.toNat

/-- Lexicographic strict comparison of character lists. -/
def charListLtB : List Char → List Char → Bool
  | [], [] => false
  | [], _ :: _ => true
  | _ :: _, [] => false
  | a :: as, b :: bs => charLtB a b || (a = b && charListLtB as bs)

/-- Lexicographic strict comparison of strings, used as the sort comparator
for text columns. -/
def strLtB (a b : String) : Bool := charListLtB a.data b.data

/-- JavaScript truthiness (`!v` in the handler negates this).  `undefined` is
modelled as the absence of the field (`Option.none` at the use sites). -/
def jsTruthy : Jval → Bool
  | Jval.null => false
  | Jval.bool b => b
  | Jval.num q => decide (q ≠ 0)
  | Jval.str s => decide (s ≠ "")
  | Jval.obj _ => true

/-- The raw POST body of `sw-log`: each field is absent (`none`, i.e. the JSON
key is missing / `undefined`) or holds an arbitrary runtime value. -/
structure Submission where
  trace_id : Option Jval := none
  source : Option Jval := none
  event_type : Option Jval := none
  scan_id : Option Jval := none
  client_id : Option Jval := none
  event_name : Option Jval := none
  status : Option Jval := none
  req : Option Jval := none
  res : Option Jval := none
  err : Option Jval := none
  meta : Option Jval := none
  duration_ms : Option Jval := none
deriving DecidableEq

/-- `index.ts` line 90: `!body[field] || typeof body[field] !== "string" ||
!body[field].trim()`.  A field passes exactly when it is a truthy string whose
trim is non-empty (absent, null, non-string, empty and blank values all fail
one of the three disjuncts). -/
def requiredFieldOk : Option Jval → Bool
  | some (Jval.str s) => jsTruthy (Jval.str s) && decide (jsTrim s ≠ "")
  | _ => false

/-- `REQUIRED_FIELDS = ["trace_id", "source", "event_type"]`. -/
def REQUIRED_FIELDS : List String := ["trace_id", "source", "event_type"]

/-- Field lookup used to state the validator property uniformly. -/
def getRequired (b : Submission) : String → Option Jval
  | "trace_id" => b.trace_id
  | "source" => b.source
  | "event_type" => b.event_type
  | _ => none

/-- The string content of a field known to hold a string (the required-field
check has already passed when this is consulted). -/
def strOrEmpty : Option Jval → String
  | some (Jval.str s) => s
  | _ => ""

/-- Hex digit of either case, as matched by `[0-9a-f]` under the `/i` flag. -/
def isHexDig (c : Char) : Bool :=
  (decide ('0' ≤ c) && decide (c ≤ '9')) ||
  (decide ('a' ≤ c) && decide (c ≤ 'f')) ||
  (decide ('A' ≤ c) && decide (c ≤ 'F'))

/-- Consume exactly `n` hex digits, returning the remaining characters. -/
def hexRun : Nat → List Char → Option (List Char)
  | 0, cs => some cs
  | _ + 1, [] => none
  | n + 1, c :: cs => if isHexDig c then hexRun n cs else none

/-- `UUID_RE = /^[0-9a-f]{8}-[0-9a-f]{4}-[0-9a-f]{4}-[0-9a-f]{4}-[0-9a-f]{12}$/i`
(`index.ts` line 37), expanded group by group with the anchors forcing the
whole string to be consumed. -/
def UUID_RE (s : String) : Bool :=
  match hexRun 8 s.data with
  | some ('-' :: r1) =>
    match hexRun 4 r1 with
    | some ('-' :: r2) =>
      match hexRun 4 r2 with
      | some ('-' :: r3) =>
        match hexRun 4 r3 with
        | some ('-' :: r4) => decide (hexRun 12 r4 = some [])
        | _ => false
      | _ => false
    | _ => false
  | _ => false

/-- `VALID_STATUSES = ["info", "ok", "error"]`. -/
def VALID_STATUSES : List String := ["info", "ok", "error"]

/-- `index.ts` lines 101-104: `body.status && VALID_STATUSES.includes(body.status)
? body.status : "info"`.  `includes` compares with strict equality, so any
non-string value fails it. -/
def statusOf : Option Jval → String
  | some (Jval.str s) =>
      if jsTruthy (Jval.str s) && decide (s ∈ VALID_STATUSES) then s else "info"
  | _ => "info"

/-- `Math.round` on a finite JavaScript number: round half toward positive
infinity, i.e. the floor of `q + 1/2`. -/
def jsRound (q : ℚ) : ℤ := ⌊q + 1 / 2⌋

/-- `index.ts` line 119: `typeof body.duration_ms === "number"
? Math.round(body.duration_ms) : null`. -/
def durationOf : Option Jval → Option ℤ
  | some (Jval.num q) => some (jsRound q)
  | _ => none

/-- `x ?? null`: absent (`undefined`) and `null` both become `null`, any other
value passes through unchanged (`index.ts` lines 111-118). -/
def coalesceNull : Option Jval → Jval
  | some v => v
  | none => Jval.null

/-- A stored row of `public.sw_event_log`
(`20240301000001_create_sw_event_log.sql` lines 17-32).  `id` is the
database-generated primary key (`gen_random_uuid()` in the source, so its
value carries no insertion-order information); `created_at` is the
database-assigned `now()` timestamp, modelled in seconds. -/
structure Row where
  id : Nat
  trace_id : String
  scan_id : Jval
  client_id : Jval
  source : String
  event_type : String
  event_name : Jval
  status : String
  req : Jval
  res : Jval
  err : Jval
  meta : Jval
  duration_ms : Option ℤ
  created_at : ℤ
deriving DecidableEq

/-- The row built by `index.ts` lines 107-120, with the database filling in
`id` and `created_at`. -/
def buildRow (b : Submission) (newId : Nat) (now : ℤ) : Row :=
  { id := newId
    trace_id := jsToLower (strOrEmpty b.trace_id)
    source := jsTrim (strOrEmpty b.source)
    event_type := jsTrim (strOrEmpty b.event_type)
    scan_id := coalesceNull b.scan_id
    client_id := coalesceNull b.client_id
    event_name := coalesceNull b.event_name
    status := statusOf b.status
    req := coalesceNull b.req
    res := coalesceNull b.res
    err := coalesceNull b.err
    meta := coalesceNull b.meta
    duration_ms := durationOf b.duration_ms
    created_at := now }

/-- The HTTP outcome of one `sw-log` call: `ok` is the
`{ ok: true, id }` body with its status code, `err` is the
`{ ok: false, error: message }` body with its status code. -/
inductive SwResp where
  | ok (httpStatus : Nat) (id : Nat) : SwResp
  | err (httpStatus : Nat) (message : String) : SwResp
deriving DecidableEq

/-- The validation-and-insert pipeline of the `sw-log` Edge Function
(`index.ts` lines 88-159) for a parsed POST body, assuming the backing store
accepts the insert: check the three required fields in order, check the UUID
regex, build the row, append it, and answer `201` with the new id.  `newId`
and `now` stand for the database-generated primary key and timestamp. -/
def swLog (b : Submission) (store : List Row) (newId : Nat) (now : ℤ) :
    SwResp × List Row :=
  if ¬ requiredFieldOk b.trace_id then
    (SwResp.err 400 "Missing or invalid required field: trace_id", store)
  else if ¬ requiredFieldOk b.source then
    (SwResp.err 400 "Missing or invalid required field: source", store)
  else if ¬ requiredFieldOk b.event_type then
    (SwResp.err 400 "Missing or invalid required field: event_type", store)
  else if ¬ UUID_RE (strOrEmpty b.trace_id) then
    (SwResp.err 400
      "trace_id must be a valid UUID (xxxxxxxx-xxxx-xxxx-xxxx-xxxxxxxxxxxx).",
      store)
  else
    (SwResp.ok 201 newId, store ++ [buildRow b newId now])

/-! ### The storage boundary: append-only rules and row-level security -/

/-- A row of `public.sw_event_artifacts`
(`20240301000002_create_sw_event_artifacts.sql` lines 10-20). -/
structure Artifact where
  id : Nat
  event_id : Nat
  trace_id : String
  artifact_type : String
  content_type : Option String
  storage_path : Option String
  data : Jval
  size_bytes : Option ℤ
  created_at : ℤ
deriving DecidableEq

/-- A DML statement against one table: an insert of a row, an update setting
`set` on every row matching `cond`, or a delete of every row matching
`cond`. -/
inductive TableStmt (α : Type) where
  | ins (r : α) : TableStmt α
  | upd (cond : α → Bool) (set : α → α) : TableStmt α
  | del (cond : α → Bool) : TableStmt α

/-- What a statement would do to the table contents if no rewrite rule
intercepted it (plain SQL semantics, rows kept in insertion order). -/
def rawExec {α : Type} : TableStmt α → List α → List α
  | TableStmt.ins r, s => s ++ [r]
  | TableStmt.upd cond set, s => s.map (fun r => if cond r then set r else r)
  | TableStmt.del cond, s => s.filter (fun r => ¬ cond r)

/-- Is the statement an update or a delete (an attempted mutation of existing
rows)? -/
def TableStmt.isMutation {α : Type} : TableStmt α → Bool
  | TableStmt.ins _ => false
  | TableStmt.upd _ _ => true
  | TableStmt.del _ => true

/-- The rewrite rules `sw_event_log_no_update` / `sw_event_log_no_delete`
(`20240301000001_create_sw_event_log.sql` lines 35-39): `ON UPDATE ... DO
INSTEAD NOTHING` and `ON DELETE ... DO INSTEAD NOTHING` replace the statement
with no statement before it executes, for every caller. -/
def sw_event_log_rules {α : Type} : TableStmt α → Option (TableStmt α)
  | TableStmt.upd _ _ => none
  | TableStmt.del _ => none
  | st => some st

/-- Execute one statement against `sw_event_log` contents: the rules fire
first, so updates and deletes execute nothing. -/
def sw_event_log_exec (st : TableStmt Row) (s : List Row) : List Row :=
  match sw_event_log_rules st with
  | none => s
  | some st2 => rawExec st2 s

/-- Execute a sequence of statements against `sw_event_log`. -/
def sw_event_log_execList (ops : List (TableStmt Row)) (s : List Row) : List Row :=
  ops.foldl (fun acc op => sw_event_log_exec op acc) s

/-- The identical rules `sw_event_artifacts_no_update` /
`sw_event_artifacts_no_delete`
(`20240301000002_create_sw_event_artifacts.sql` lines 23-27) applied to one
statement against `sw_event_artifacts`. -/
def sw_event_artifacts_exec (st : TableStmt Artifact) (s : List Artifact) :
    List Artifact :=
  match sw_event_log_rules st with
  | none => s
  | some st2 => rawExec st2 s

/-- Execute a sequence of statements against `sw_event_artifacts`. -/
def sw_event_artifacts_execList (ops : List (TableStmt Artifact))
    (s : List Artifact) : List Artifact :=
  ops.foldl (fun acc op => sw_event_artifacts_exec op acc) s

/-- The JWT claims consulted by the `admin_select` policy. -/
structure Jwt where
  role : Option String
  app_metadata_role : Option String
deriving DecidableEq

/-- Who is issuing a statement: the service-role key, an authenticated user
with JWT claims, or an unauthenticated (anon) caller. -/
inductive Caller where
  | service_role : Caller
  | authenticated (jwt : Jwt) : Caller
  | anon : Caller
deriving DecidableEq

/-- The `USING` clause of the `admin_select` policy
(`20240301000001_create_sw_event_log.sql` lines 79-85): an authenticated
caller whose JWT carries `role = admin` directly or under `app_metadata`. -/
def adminClaim : Caller → Bool
  | Caller.authenticated j =>
      j.role == some "admin" || j.app_metadata_role == some "admin"
  | _ => false

/-- Database-surfaced failure of a statement. -/
inductive DbError where
  | rlsViolation : DbError
deriving DecidableEq

/-- `SELECT` on `sw_event_log` under row-level security: the service role
bypasses RLS (as the migration comment notes), authenticated callers see the
rows the `admin_select` policy grants, and every other caller matches no
`SELECT` policy, so RLS filters every row out.  A `SELECT` never raises an
authorization failure; under-privileged callers simply receive no rows. -/
def selectEvents (c : Caller) (store : List Row) : Except DbError (List Row) :=
  Except.ok (if c = Caller.service_role || adminClaim c then store else [])

/-- `INSERT` on `sw_event_log` under row-level security: only
`service_role_insert` (`20240301000001_create_sw_event_log.sql` lines 71-74)
grants inserts, to the service role; any other caller violates row-level
security and the insert fails. -/
def insertEvent (c : Caller) (r : Row) (store : List Row) :
    Except DbError (List Row) :=
  if c = Caller.service_role then Except.ok (store ++ [r])
  else Except.error DbError.rlsViolation

/-! ### Read-side derivations: timeline view and error-window query -/

/-- The `ORDER BY l.trace_id, l.created_at ASC` key of `v_trace_timeline`
(`20240301000003_sw_event_log_helpers.sql` line 25): lexicographic on
`(trace_id, created_at)`.  Note the order key does not mention `id`. -/
def viewLe (a b : Row) : Prop :=
  strLtB a.trace_id b.trace_id = true ∨
    (a.trace_id = b.trace_id ∧ a.created_at ≤ b.created_at)

instance viewLe.decidableRel : DecidableRel viewLe := fun a b =>
  if h1 : strLtB a.trace_id b.trace_id = true then isTrue (Or.inl h1)
  else if h2 : a.trace_id = b.trace_id ∧ a.created_at ≤ b.created_at then
    isTrue (Or.inr h2)
  else isFalse (fun h => h.elim h1 h2)

theorem charListLtB_conn : ∀ as bs, charListLtB as bs = false →
    charListLtB bs as = false → as = bs := by
  intro as
  induction as with
  | nil =>
    intro bs h1 h2
    cases bs with
    | nil => rfl
    | cons b bs => simp [charListLtB] at h1
  | cons a as ih =>
    intro bs h1 h2
    cases bs with
    | nil => simp [charListLtB] at h2
    | cons b bs =>
      simp [charListLtB, charLtB] at h1 h2
      obtain ⟨hab, h1x⟩ := h1
      obtain ⟨hba, h2x⟩ := h2
      have hval : a.toNat = b.toNat := le_antisymm (by omega) (by omega)
      have hab2 : a = b := by
        rw [← Char.ofNat_toNat a, ← Char.ofNat_toNat b, hval]
      subst hab2
      simp at h1x h2x
      rw [ih bs h1x h2x]

theorem strLtB_conn (a b : String) (h1 : strLtB a b = false)
    (h2 : strLtB b a = false) : a = b := by
  cases a; cases b
  exact congrArg String.mk (charListLtB_conn _ _ h1 h2)

theorem charListLtB_trans : ∀ as bs cs, charListLtB as bs = true →
    charListLtB bs cs = true → charListLtB as cs = true := by
  intro as
  induction as with
  | nil =>
    intro bs cs h1 h2
    cases bs with
    | nil => simp [charListLtB] at h1
    | cons b bs =>
      cases cs with
      | nil => simp [charListLtB] at h2
      | cons c cs => simp [charListLtB]
  | cons a as ih =>
    intro bs cs h1 h2
    cases bs with
    | nil => simp [charListLtB] at h1
    | cons b bs =>
      cases cs with
      | nil => simp [charListLtB] at h2
      | cons c cs =>
        simp [charListLtB, charLtB] at h1 h2 ⊢
        rcases h1 with h1 | ⟨rfl, h1⟩
        · rcases h2 with h2 | ⟨rfl, h2⟩
          · exact Or.inl (by omega)
          · exact Or.inl h1
        · rcases h2 with h2 | ⟨rfl, h2⟩
          · exact Or.inl h2
          · exact Or.inr ⟨rfl, ih bs cs h1 h2⟩

theorem strLtB_trans (a b c : String) (h1 : strLtB a b = true)
    (h2 : strLtB b c = true) : strLtB a c = true :=
  charListLtB_trans _ _ _ h1 h2

instance viewLe.isTotal : IsTotal Row viewLe where
  total a b := by
    cases h1 : strLtB a.trace_id b.trace_id with
    | true => exact Or.inl (Or.inl h1)
    | false =>
      cases h2 : strLtB b.trace_id a.trace_id with
      | true => exact Or.inr (Or.inl h2)
      | false =>
        have heq := strLtB_conn _ _ h1 h2
        rcases le_total a.created_at b.created_at with h3 | h3
        · exact Or.inl (Or.inr ⟨heq, h3⟩)
        · exact Or.inr (Or.inr ⟨heq.symm, h3⟩)

instance viewLe.isTrans : IsTrans Row viewLe where
  trans a b c hab hbc := by
    rcases hab with hab | ⟨hab, hab2⟩
    · rcases hbc with hbc | ⟨hbc, _⟩
      · exact Or.inl (strLtB_trans _ _ _ hab hbc)
      · exact Or.inl (hbc ▸ hab)
    · rcases hbc with hbc | ⟨hbc, hbc2⟩
      · exact Or.inl (hab ▸ hbc)
      · exact Or.inr ⟨hab.trans hbc, hab2.trans hbc2⟩

/-- The view `v_trace_timeline`
(`20240301000003_sw_event_log_helpers.sql` lines 10-25): the ledger contents
ordered by `(trace_id, created_at ASC)`, using a stable sort of the stored
rows. -/
def v_trace_timeline (store : List Row) : List Row :=
  List.insertionSort viewLe store

/-- The Timeline View for one trace: `SELECT * FROM v_trace_timeline WHERE
trace_id = t` — the rows of the view restricted to the given trace
identifier value. -/
def timelineFor (store : List Row) (t : String) : List Row :=
  (v_trace_timeline store).filter (fun r => decide (r.trace_id = t))

/-- Querying the timeline with a raw textual trace id: the `trace_id` column
has SQL type `UUID`, whose values are case-insensitive, so the query text is
lowercase-normalized before the comparison. -/
def queryTimeline (store : List Row) (q : String) : List Row :=
  timelineFor store (jsToLower q)

/-- `ORDER BY l.created_at DESC` as a relation: later rows first. -/
def descCreated (a b : Row) : Prop := b.created_at ≤ a.created_at

instance descCreated.decidableRel : DecidableRel descCreated := fun a b =>
  Int.decLe b.created_at a.created_at

instance descCreated.isTotal : IsTotal Row descCreated where
  total a b := (le_total b.created_at a.created_at).imp id id

instance descCreated.isTrans : IsTrans Row descCreated where
  trans _ _ _ hab hbc := hbc.trans hab

/-- `sw_event_log_errors_since(minutes INT DEFAULT 15)`
(`20240301000003_sw_event_log_helpers.sql` lines 58-88): the rows with
`status = 'error'` and `created_at >= now() - (minutes || ' minutes')::INTERVAL`,
ordered by `created_at DESC`.  Timestamps are in seconds, so the window bound
is `now - 60 * minutes`.  No bound is placed on `minutes` by the function. -/
def sw_event_log_errors_since (store : List Row) (now : ℤ) (minutes : ℤ) :
    List Row :=
  List.insertionSort descCreated
    (store.filter (fun r =>
      r.status == "error" && decide (now - 60 * minutes ≤ r.created_at)))

/-- The call `sw_event_log_errors_since()` with the declared default
`minutes = 15`. -/
def errors_since_default (store : List Row) (now : ℤ) : List Row :=
  sw_event_log_errors_since store now 15

/-! ### Replay engine (debug/replay_runner.py) -/

/-- Modelled from the spec: `debug/replay_runner.py` is not among the source
files; spec section 4.5 and the README describe it.  The outbound request the
replay engine would POST to the workflow entry point: the root `req` payload
with the original `trace_id` attached, sent to the configured target. -/
structure OutboundReq where
  payload : Jval
  trace_id : String
  target : String
deriving DecidableEq

/-- Modelled from the spec: the failure modes of the replay engine named in
spec section 4.5. -/
inductive ReplayError where
  | notFound : ReplayError
  | incompleteTrace : ReplayError
deriving DecidableEq

/-- Does the event carry a non-null `req` payload? -/
def hasReqPayload (e : Row) : Bool := decide (e.req ≠ Jval.null)

/-- Modelled from the spec: `debug/replay_runner.py` is not among the source
files; spec section 4.5 and the README describe it.  Fetch the timeline for
the trace; fail with `NotFoundError` when no events exist; otherwise take the
earliest event (in Timeline View order) carrying a non-null `req` payload as
the root request, failing with `IncompleteTraceError` when there is none; on
success re-issue the root payload with the original `trace_id` preserved. -/
def replay (store : List Row) (t : String) (target : String) :
    Except ReplayError OutboundReq :=
  let tl := timelineFor store t
  if tl.isEmpty then Except.error ReplayError.notFound
  else
    match tl.find? hasReqPayload with
    | none => Except.error ReplayError.incompleteTrace
    | some root => Except.ok ⟨root.req, t, target⟩

/-- Modelled from the spec: the outbound calls one replay invocation
dispatches — exactly the reconstructed request on success, none on
failure. -/
def replayDispatches (store : List Row) (t : String) (target : String) :
    List OutboundReq :=
  match replay store t target with
  | Except.ok r => [r]
  | Except.error _ => []

/-! ### Contract verifier (debug/contract_tests.py) -/

/-- Modelled from the spec: one invariant check result — an independent
boolean plus a diagnostic message (spec section 4.6). -/
structure CheckResult where
  name : String
  passed : Bool
  message : String
deriving DecidableEq

/-- Terminal events per the spec glossary: `workflow.complete` or
`workflow.error`. -/
def isTerminalEvent (e : Row) : Bool :=
  e.event_type == "workflow.complete" || e.event_type == "workflow.error"

/-- Number of terminal events in a timeline. -/
def terminalCount (tl : List Row) : Nat := (tl.filter isTerminalEvent).length

/-- Modelled from the spec: check 1 — at least one event exists for the
trace. -/
def checkTraceExists (tl : List Row) : CheckResult :=
  ⟨"trace_exists", !tl.isEmpty, "at least one event exists for the trace_id"⟩

/-- Modelled from the spec: check 2 — exactly one `workflow.start` event. -/
def checkWorkflowStart (tl : List Row) : CheckResult :=
  ⟨"workflow_start",
    (tl.filter (fun e => e.event_type == "workflow.start")).length == 1,
    "exactly one workflow.start event exists"⟩

/-- Modelled from the spec: check 3 — at least one activity event
(`tool.call` or `tool.result`). -/
def checkActivity (tl : List Row) : CheckResult :=
  ⟨"activity",
    tl.any (fun e => e.event_type == "tool.call" || e.event_type == "tool.result"),
    "at least one tool.call or tool.result activity event exists"⟩

/-- Modelled from the spec: check 4 — exactly one terminal event
(`workflow.complete` or `workflow.error`); zero or more than one fails. -/
def checkTerminal (tl : List Row) : CheckResult :=
  ⟨"terminal", terminalCount tl == 1,
    "exactly one terminal event (workflow.complete or workflow.error) exists"⟩

/-- Does the event carry a non-null, non-empty `err.message`? -/
def errMessageOk (e : Row) : Bool :=
  match e.err with
  | Jval.obj fs =>
    match fs.get "message" with
    | some (Jval.str s) => !(s == "")
    | _ => false
  | _ => false

/-- Modelled from the spec: check 5 — every `status = error` event has a
non-null, non-empty `err.message`. -/
def checkErrMessages (tl : List Row) : CheckResult :=
  ⟨"error_messages",
    tl.all (fun e => !(e.status == "error") || errMessageOk e),
    "every status=error event has a non-empty err.message"⟩

/-- Modelled from the spec: check 6 — all events carrying a non-null
`scan_id` carry the same value. -/
def checkScanIdConsistent (tl : List Row) : CheckResult :=
  ⟨"scan_id_consistent",
    (match tl.filterMap (fun e =>
        match e.scan_id with
        | Jval.null => none
        | v => some v) with
     | [] => true
     | v :: rest => rest.all (fun w => w == v)),
    "all events with a scan_id share the same value"⟩

/-- Is the list of rows non-decreasing in `created_at`? -/
def nondecreasingCreated : List Row → Bool
  | [] => true
  | [_] => true
  | a :: b :: rest =>
      decide (a.created_at ≤ b.created_at) && nondecreasingCreated (b :: rest)

/-- Modelled from the spec: check 7 — the events of the trace, read in
storage order, have non-decreasing `created_at`. -/
def checkTemporalOrder (storageOrder : List Row) : CheckResult :=
  ⟨"temporal_order", nondecreasingCreated storageOrder,
    "events are temporally ordered (non-decreasing created_at)"⟩

/-- Does the event record `meta.fixture_mode = true`? -/
def fixtureModeRecorded (e : Row) : Bool :=
  match e.meta with
  | Jval.obj fs => fs.get "fixture_mode" == some (Jval.bool true)
  | _ => false

/-- Modelled from the spec: check 8 — when the run expects fixture mode,
every event records `meta.fixture_mode = true`; otherwise the check is
skipped, not failed. -/
def checkFixtureMode (tl : List Row) (fixtureExpected : Bool) : CheckResult :=
  ⟨"fixture_mode", !fixtureExpected || tl.all fixtureModeRecorded,
    "all events record meta.fixture_mode = true when fixture mode is expected"⟩

/-- The synthetic well-formed event submitted by the ingestion health
check. -/
def syntheticHealthEvent : Submission :=
  { trace_id := some (Jval.str "00000000-0000-0000-0000-000000000001")
    source := some (Jval.str "contract_tests")
    event_type := some (Jval.str "health.check")
    status := some (Jval.str "info") }

/-- Modelled from the spec: check 9 — the ingestion boundary is healthy:
`sw-log` acknowledges a synthetic well-formed event with status 201. -/
def checkIngestionHealth (store : List Row) : CheckResult :=
  ⟨"sw_log_health",
    (match (swLog syntheticHealthEvent store 0 0).1 with
     | SwResp.ok 201 _ => true
     | _ => false),
    "sw-log accepts a valid health-check insert with a 201 response"⟩

/-- Modelled from the spec: `debug/contract_tests.py` is not among the source
files; spec section 4.6 and the README describe it.  The nine invariant
checks over one trace, in order, each an independent boolean with a
diagnostic message. -/
def runChecks (store : List Row) (t : String) (fixtureExpected : Bool) :
    List CheckResult :=
  [checkTraceExists (timelineFor store t),
   checkWorkflowStart (timelineFor store t),
   checkActivity (timelineFor store t),
   checkTerminal (timelineFor store t),
   checkErrMessages (timelineFor store t),
   checkScanIdConsistent (timelineFor store t),
   checkTemporalOrder (store.filter (fun r => decide (r.trace_id = t))),
   checkFixtureMode (timelineFor store t) fixtureExpected,
   checkIngestionHealth store]

/-- Keep the results up to and including the first failure (pytest `-x`). -/
def stopAtFirstFailure : List CheckResult → List CheckResult
  | [] => []
  | c :: cs => if c.passed then c :: stopAtFirstFailure cs else [c]

/-- Modelled from the spec: the verifier runs every check and aggregates the
results; only an explicit fail-fast request halts at the first failure. -/
def verifyTrace (store : List Row) (t : String)
    (fixtureExpected failFast : Bool) : List CheckResult :=
  if failFast then stopAtFirstFailure (runChecks store t fixtureExpected)
  else runChecks store t fixtureExpected

/-! ### Helper lemmas -/

theorem charListLtB_irrefl : ∀ as, charListLtB as as = false
  | [] => rfl
  | a :: as => by
      simp [charListLtB, charLtB, charListLtB_irrefl as, Nat.lt_irrefl]

theorem strLtB_irrefl (a : String) : strLtB a a = false :=
  charListLtB_irrefl a.data

theorem swLog_accepted (b : Submission) (store : List Row) (newId : Nat)
    (now : ℤ) (h1 : requiredFieldOk b.trace_id = true)
    (h2 : requiredFieldOk b.source = true)
    (h3 : requiredFieldOk b.event_type = true)
    (h4 : UUID_RE (strOrEmpty b.trace_id) = true) :
    swLog b store newId now = (SwResp.ok 201 newId, store ++ [buildRow b newId now]) := by
  simp [swLog, h1, h2, h3, h4]

theorem mem_timelineFor (store : List Row) (t : String) (r : Row) :
    r ∈ timelineFor store t ↔ r ∈ store ∧ r.trace_id = t := by
  simp [timelineFor, v_trace_timeline, List.mem_filter]

theorem timelineFor_sorted (store : List Row) (t : String) :
    (timelineFor store t).Sorted (fun a b : Row => a.created_at ≤ b.created_at) := by
  have h1 : (timelineFor store t).Sorted viewLe :=
    (List.sorted_insertionSort viewLe store).filter _
  have h2 : ∀ r ∈ timelineFor store t, r.trace_id = t :=
    fun r hr => ((mem_timelineFor store t r).mp hr).2
  refine List.Pairwise.imp_of_mem ?_ h1
  intro a b ha hb hab
  rcases hab with hab | ⟨_, hle⟩
  · rw [h2 a ha, h2 b hb, strLtB_irrefl] at hab
    cases hab
  · exact hle

/-! ### C2: required-field validation -/

/-- C2: a submission in which any of the required string fields `trace_id`,
`source`, `event_type` is absent, not a string, or empty after trimming is
rejected with a field-naming validation error as a 400 `{ ok: false, error }`
response, the store is unchanged, and the submission never appears in any
subsequent Timeline View result. -/
theorem required_field_rejection (b : Submission) (store : List Row)
    (newId : Nat) (now : ℤ)
    (h : ¬ (requiredFieldOk b.trace_id = true ∧ requiredFieldOk b.source = true ∧
        requiredFieldOk b.event_type = true)) :
    (∃ f ∈ REQUIRED_FIELDS, requiredFieldOk (getRequired b f) = false ∧
      (swLog b store newId now).1 =
        SwResp.err 400 ("Missing or invalid required field: " ++ f)) ∧
    (swLog b store newId now).2 = store ∧
    ∀ t, timelineFor (swLog b store newId now).2 t = timelineFor store t := by
  by_cases h1 : requiredFieldOk b.trace_id = true
  · by_cases h2 : requiredFieldOk b.source = true
    · by_cases h3 : requiredFieldOk b.event_type = true
      · exact absurd ⟨h1, h2, h3⟩ h
      · have hs : swLog b store newId now =
            (SwResp.err 400 "Missing or invalid required field: event_type", store) := by
          simp [swLog, h1, h2, h3]
        rw [hs]
        exact ⟨⟨"event_type", by simp [REQUIRED_FIELDS],
          by simpa [getRequired] using Bool.not_eq_true _ |>.mp h3, rfl⟩,
          rfl, fun t => rfl⟩
    · have hs : swLog b store newId now =
          (SwResp.err 400 "Missing or invalid required field: source", store) := by
        simp [swLog, h1, h2]
      rw [hs]
      exact ⟨⟨"source", by simp [REQUIRED_FIELDS],
        by simpa [getRequired] using Bool.not_eq_true _ |>.mp h2, rfl⟩,
        rfl, fun t => rfl⟩
  · have hs : swLog b store newId now =
        (SwResp.err 400 "Missing or invalid required field: trace_id", store) := by
      simp [swLog, h1]
    rw [hs]
    exact ⟨⟨"trace_id", by simp [REQUIRED_FIELDS],
      by simpa [getRequired] using Bool.not_eq_true _ |>.mp h1, rfl⟩,
      rfl, fun t => rfl⟩

/-- A submission with a valid trace and source but no `event_type`. -/
def subMissingType : Submission :=
  { trace_id := some (Jval.str "11111111-1111-1111-1111-111111111111")
    source := some (Jval.str "bolt") }

/-- C2 witness: the concrete submission missing `event_type` is rejected and
the store stays empty. -/
theorem required_field_rejection_witness :
    (swLog subMissingType [] 0 0).2 = [] :=
  (required_field_rejection subMissingType [] 0 0 (by decide)).2.1

/-! ### C3: UUID validation and lowercase normalization -/

theorem hexRun_append : ∀ (g rest : List Char), (∀ c ∈ g, isHexDig c = true) →
    hexRun g.length (g ++ rest) = some rest
  | [], _, _ => rfl
  | c :: g, rest, h => by
      simp only [List.length_cons, List.cons_append, hexRun,
        h c (List.mem_cons_self c g), if_true]
      exact hexRun_append g rest (fun d hd => h d (List.mem_cons_of_mem c hd))

theorem hexRun_decompose : ∀ (n : Nat) (cs rest : List Char),
    hexRun n cs = some rest →
    ∃ g, g.length = n ∧ (∀ c ∈ g, isHexDig c = true) ∧ cs = g ++ rest := by
  intro n
  induction n with
  | zero =>
    intro cs rest h
    refine ⟨[], rfl, by simp, ?_⟩
    simpa [hexRun] using h
  | succ n ih =>
    intro cs rest h
    cases cs with
    | nil => simp [hexRun] at h
    | cons c cs =>
      by_cases hc : isHexDig c = true
      · simp only [hexRun, hc, if_true] at h
        obtain ⟨g, hg1, hg2, hg3⟩ := ih cs rest h
        refine ⟨c :: g, by simp [hg1], ?_, by simp [hg3]⟩
        intro d hd
        rcases List.mem_cons.mp hd with rfl | hd
        · exact hc
        · exact hg2 d hd
      · simp [hexRun, hc] at h

/-- The canonical 8-4-4-4-12 textual UUID form, stated structurally following
the words of the spec: five dash-separated groups of hex digits (of either
case) of lengths 8, 4, 4, 4 and 12. -/
def UUIDCanonicalShape (s : String) : Prop :=
  ∃ g1 g2 g3 g4 g5 : List Char,
    g1.length = 8 ∧ g2.length = 4 ∧ g3.length = 4 ∧ g4.length = 4 ∧
    g5.length = 12 ∧
    (∀ c ∈ g1 ++ g2 ++ g3 ++ g4 ++ g5, isHexDig c = true) ∧
    s.data = g1 ++ '-' :: (g2 ++ '-' :: (g3 ++ '-' :: (g4 ++ '-' :: g5)))

theorem UUID_RE_iff_canonical (s : String) :
    UUID_RE s = true ↔ UUIDCanonicalShape s := by
  constructor
  · intro h
    unfold UUID_RE at h
    split at h
    next r1 heq1 =>
      split at h
      next r2 heq2 =>
        split at h
        next r3 heq3 =>
          split at h
          next r4 heq4 =>
            have h5 := of_decide_eq_true h
            obtain ⟨g1, l1, x1, e1⟩ := hexRun_decompose _ _ _ heq1
            obtain ⟨g2, l2, x2, e2⟩ := hexRun_decompose _ _ _ heq2
            obtain ⟨g3, l3, x3, e3⟩ := hexRun_decompose _ _ _ heq3
            obtain ⟨g4, l4, x4, e4⟩ := hexRun_decompose _ _ _ heq4
            obtain ⟨g5, l5, x5, e5⟩ := hexRun_decompose _ _ _ h5
            refine ⟨g1, g2, g3, g4, g5, l1, l2, l3, l4, l5, ?_, ?_⟩
            · intro c hc
              simp only [List.mem_append] at hc
              rcases hc with (((hc | hc) | hc) | hc) | hc
              · exact x1 c hc
              · exact x2 c hc
              · exact x3 c hc
              · exact x4 c hc
              · exact x5 c hc
            · rw [e1, e2, e3, e4, e5]
              simp
          next hne => simp at h
        next hne => simp at h
      next hne => simp at h
    next hne => simp at h
  · rintro ⟨g1, g2, g3, g4, g5, l1, l2, l3, l4, l5, hx, hd⟩
    have x1 : ∀ c ∈ g1, isHexDig c = true := fun c hc => hx c (by simp [hc])
    have x2 : ∀ c ∈ g2, isHexDig c = true := fun c hc => hx c (by simp [hc])
    have x3 : ∀ c ∈ g3, isHexDig c = true := fun c hc => hx c (by simp [hc])
    have x4 : ∀ c ∈ g4, isHexDig c = true := fun c hc => hx c (by simp [hc])
    have x5 : ∀ c ∈ g5, isHexDig c = true := fun c hc => hx c (by simp [hc])
    have e1 : hexRun 8 s.data =
        some ('-' :: (g2 ++ '-' :: (g3 ++ '-' :: (g4 ++ '-' :: g5)))) := by
      rw [hd, ← l1]
      exact hexRun_append g1 _ x1
    have e2 : hexRun 4 (g2 ++ '-' :: (g3 ++ '-' :: (g4 ++ '-' :: g5))) =
        some ('-' :: (g3 ++ '-' :: (g4 ++ '-' :: g5))) := by
      rw [← l2]
      exact hexRun_append g2 _ x2
    have e3 : hexRun 4 (g3 ++ '-' :: (g4 ++ '-' :: g5)) =
        some ('-' :: (g4 ++ '-' :: g5)) := by
      rw [← l3]
      exact hexRun_append g3 _ x3
    have e4 : hexRun 4 (g4 ++ '-' :: g5) = some ('-' :: g5) := by
      rw [← l4]
      exact hexRun_append g4 _ x4
    have e5 : hexRun 12 g5 = some [] := by
      have := hexRun_append g5 [] x5
      rw [l5] at this
      simpa using this
    unfold UUID_RE
    rw [e1]
    simp only [e2, e3, e4, e5]
    simp

/-- C3: given the required fields pass, a submission is accepted exactly when
its `trace_id` has the canonical 8-4-4-4-12 hex UUID form with either letter
case; an accepted `trace_id` is stored lowercase-normalized, querying
normalizes case the same way (so either case reaches the same records), and
the stored record is returned when querying with the submitted spelling. -/
theorem uuid_normalization (b : Submission) (store : List Row) (newId : Nat)
    (now : ℤ) (h1 : requiredFieldOk b.trace_id = true)
    (h2 : requiredFieldOk b.source = true)
    (h3 : requiredFieldOk b.event_type = true) :
    ((swLog b store newId now).1 = SwResp.ok 201 newId ↔
      UUIDCanonicalShape (strOrEmpty b.trace_id)) ∧
    (UUID_RE (strOrEmpty b.trace_id) = true →
      (swLog b store newId now).2 = store ++ [buildRow b newId now] ∧
      (buildRow b newId now).trace_id = jsToLower (strOrEmpty b.trace_id)) ∧
    (UUID_RE (strOrEmpty b.trace_id) = false →
      (swLog b store newId now).2 = store) ∧
    (∀ q1 q2 : String, jsToLower q1 = jsToLower q2 →
      queryTimeline store q1 = queryTimeline store q2) ∧
    (UUID_RE (strOrEmpty b.trace_id) = true →
      buildRow b newId now ∈
        queryTimeline ((swLog b store newId now).2) (strOrEmpty b.trace_id)) := by
  have hquery : ∀ q1 q2 : String, jsToLower q1 = jsToLower q2 →
      queryTimeline store q1 = queryTimeline store q2 := by
    intro q1 q2 hq
    unfold queryTimeline
    rw [hq]
  by_cases hu : UUID_RE (strOrEmpty b.trace_id) = true
  · have hs := swLog_accepted b store newId now h1 h2 h3 hu
    refine ⟨?_, ?_, ?_, hquery, ?_⟩
    · rw [hs]
      simpa using (UUID_RE_iff_canonical (strOrEmpty b.trace_id)).mp hu
    · intro hT
      exact ⟨by rw [hs], rfl⟩
    · intro hF
      rw [hu] at hF
      cases hF
    · intro hT
      rw [hs]
      unfold queryTimeline
      rw [mem_timelineFor]
      exact ⟨by simp, rfl⟩
  · have hf : UUID_RE (strOrEmpty b.trace_id) = false := by
      simpa using hu
    have hs : swLog b store newId now =
        (SwResp.err 400
          "trace_id must be a valid UUID (xxxxxxxx-xxxx-xxxx-xxxx-xxxxxxxxxxxx).",
          store) := by
      simp [swLog, h1, h2, h3, hf]
    refine ⟨?_, ?_, ?_, hquery, ?_⟩
    · rw [hs]
      constructor
      · intro hbad
        cases hbad
      · intro hshape
        exact absurd ((UUID_RE_iff_canonical _).mpr hshape) hu
    · intro hT
      rw [hT] at hf
      cases hf
    · intro hF
      rw [hs]
    · intro hT
      rw [hT] at hf
      cases hf

/-- A well-formed submission whose `trace_id` mixes upper and lower case. -/
def subMixed : Submission :=
  { trace_id := some (Jval.str "AbCdEf01-2345-6789-AbCd-Ef0123456789")
    source := some (Jval.str "bolt")
    event_type := some (Jval.str "workflow.start") }

/-- C3 witness: the mixed-case submission is stored lowercase-normalized and
found again by querying with the original mixed-case spelling. -/
theorem uuid_normalization_witness :
    (buildRow subMixed 5 50).trace_id = "abcdef01-2345-6789-abcd-ef0123456789" ∧
    buildRow subMixed 5 50 ∈
      queryTimeline ((swLog subMixed [] 5 50).2)
        "AbCdEf01-2345-6789-AbCd-Ef0123456789" := by
  have h := uuid_normalization subMixed [] 5 50 (by decide) (by decide) (by decide)
  refine ⟨((h.2.1 (by decide)).2).trans (by decide), ?_⟩
  simpa [subMixed, strOrEmpty] using h.2.2.2.2 (by decide)

/-! ### C6: status coercion, C10: duration rounding -/

/-- Is the submitted `status` a string among the three allowed values?  The
claim calls everything else (absence included) invalid. -/
def statusValid : Option Jval → Bool
  | some (Jval.str s) => decide (s ∈ VALID_STATUSES)
  | _ => false

/-- C6: a submission whose `status` is absent or not one of `info`, `ok`,
`error` is stored with `status = "info"` — it is normalized, never rejected —
and a submission whose `status` is one of the three allowed values is stored
with that status unchanged. -/
theorem status_normalization (b : Submission) (store : List Row) (newId : Nat)
    (now : ℤ) (h1 : requiredFieldOk b.trace_id = true)
    (h2 : requiredFieldOk b.source = true)
    (h3 : requiredFieldOk b.event_type = true)
    (h4 : UUID_RE (strOrEmpty b.trace_id) = true) :
    (swLog b store newId now).1 = SwResp.ok 201 newId ∧
    (swLog b store newId now).2 = store ++ [buildRow b newId now] ∧
    (statusValid b.status = false → (buildRow b newId now).status = "info") ∧
    (∀ v : String, b.status = some (Jval.str v) → v ∈ VALID_STATUSES →
      (buildRow b newId now).status = v) := by
  have hs := swLog_accepted b store newId now h1 h2 h3 h4
  refine ⟨by rw [hs], by rw [hs], ?_, ?_⟩
  · intro hv
    show statusOf b.status = "info"
    match hb : b.status with
    | none => rfl
    | some Jval.null => rfl
    | some (Jval.bool x) => rfl
    | some (Jval.num x) => rfl
    | some (Jval.obj x) => rfl
    | some (Jval.str v) =>
      rw [hb] at hv
      simp only [statusValid] at hv
      simp [statusOf, hv]
  · intro v hb hmem
    show statusOf b.status = v
    rw [hb]
    simp [VALID_STATUSES] at hmem
    rcases hmem with rfl | rfl | rfl <;> rfl

/-- A well-formed submission with `status` omitted. -/
def subStatusless : Submission :=
  { trace_id := some (Jval.str "22222222-2222-2222-2222-222222222222")
    source := some (Jval.str "n8n")
    event_type := some (Jval.str "tool.call") }

/-- C6 witness: the statusless submission is accepted and stored with
`status = "info"`. -/
theorem status_normalization_witness :
    (buildRow subStatusless 1 10).status = "info" :=
  ((status_normalization subStatusless [] 1 10 (by decide) (by decide)
    (by decide) (by decide)).2.2.1 (by decide))

/-- C10: for every accepted submission, the stored `duration_ms` is the
submitted number rounded (`Math.round`, within one half of the submitted
value) whenever a number — negative and fractional values included, with no
rejection — and `null` whenever the field is absent or not a number. -/
theorem duration_rounding (b : Submission) (store : List Row) (newId : Nat)
    (now : ℤ) (h1 : requiredFieldOk b.trace_id = true)
    (h2 : requiredFieldOk b.source = true)
    (h3 : requiredFieldOk b.event_type = true)
    (h4 : UUID_RE (strOrEmpty b.trace_id) = true) :
    (swLog b store newId now).1 = SwResp.ok 201 newId ∧
    (∀ q : ℚ, b.duration_ms = some (Jval.num q) →
      (buildRow b newId now).duration_ms = some (jsRound q) ∧
      |((jsRound q : ℚ)) - q| ≤ 1 / 2) ∧
    ((∀ q : ℚ, b.duration_ms ≠ some (Jval.num q)) →
      (buildRow b newId now).duration_ms = none) := by
  have hs := swLog_accepted b store newId now h1 h2 h3 h4
  refine ⟨by rw [hs], ?_, ?_⟩
  · intro q hq
    constructor
    · show durationOf b.duration_ms = some (jsRound q)
      rw [hq]
      rfl
    · have hle : ((jsRound q : ℚ)) ≤ q + 1 / 2 := Int.floor_le _
      have hgt : q + 1 / 2 - 1 < ((jsRound q : ℚ)) := Int.sub_one_lt_floor _
      rw [abs_le]
      constructor <;> linarith
  · intro hq
    show durationOf b.duration_ms = none
    match hb : b.duration_ms with
    | none => rfl
    | some Jval.null => rfl
    | some (Jval.bool x) => rfl
    | some (Jval.str x) => rfl
    | some (Jval.obj x) => rfl
    | some (Jval.num x) => exact absurd hb (hq x)

/-- A well-formed submission with fractional duration 2.5 ms. -/
def subFracDur : Submission :=
  { trace_id := some (Jval.str "33333333-3333-3333-3333-333333333333")
    source := some (Jval.str "python")
    event_type := some (Jval.str "tool.result")
    duration_ms := some (Jval.num (5 / 2)) }

/-- A well-formed submission with negative fractional duration -2.5 ms. -/
def subNegDur : Submission :=
  { subFracDur with duration_ms := some (Jval.num (-5 / 2)) }

/-- C10 witness: 2.5 rounds to 3 and -2.5 rounds to -2 in the stored rows,
both submissions accepted. -/
theorem duration_rounding_witness :
    (buildRow subFracDur 1 10).duration_ms = some 3 ∧
    (buildRow subNegDur 2 20).duration_ms = some (-2) ∧
    (swLog subNegDur [] 2 20).1 = SwResp.ok 201 2 := by
  have hp := duration_rounding subFracDur [] 1 10 (by decide) (by decide)
    (by decide) (by decide)
  have hn := duration_rounding subNegDur [] 2 20 (by decide) (by decide)
    (by decide) (by decide)
  refine ⟨?_, ?_, hn.1⟩
  · rw [(hp.2.1 (5 / 2) rfl).1]
    norm_num [jsRound]
  · rw [(hn.2.1 (-5 / 2) rfl).1]
    norm_num [jsRound]

/-! ### C5: the error window query -/

/-- C5: for every store state, reference time and window of `minutes`
minutes, `sw_event_log_errors_since` returns exactly the events with
`status = error` created inside the trailing window, ordered by `created_at`
descending; the declared default window is 15 minutes, under which an error
event from 10 minutes ago is returned and an event from 20 minutes ago is
not. -/
theorem error_window_query (store : List Row) (now : ℤ) (minutes : ℤ) :
    (∀ r, r ∈ sw_event_log_errors_since store now minutes ↔
      r ∈ store ∧ r.status = "error" ∧ now - 60 * minutes ≤ r.created_at) ∧
    (sw_event_log_errors_since store now minutes).Sorted
      (fun a b : Row => b.created_at ≤ a.created_at) ∧
    errors_since_default store now = sw_event_log_errors_since store now 15 ∧
    (∀ r ∈ store, r.status = "error" → r.created_at = now - 600 →
      r ∈ sw_event_log_errors_since store now 15) ∧
    (∀ r : Row, r.created_at = now - 1200 →
      r ∉ sw_event_log_errors_since store now 15) := by
  have hmem : ∀ m : ℤ, ∀ r : Row, r ∈ sw_event_log_errors_since store now m ↔
      r ∈ store ∧ r.status = "error" ∧ now - 60 * m ≤ r.created_at := by
    intro m r
    simp [sw_event_log_errors_since, List.mem_filter, and_assoc]
  refine ⟨hmem minutes, List.sorted_insertionSort descCreated _, rfl, ?_, ?_⟩
  · intro r hr hst hc
    exact (hmem 15 r).mpr ⟨hr, hst, by omega⟩
  · intro r hc hin
    have := ((hmem 15 r).mp hin).2.2
    omega

/-- A template ledger row for concrete instances. -/
def baseRow : Row :=
  { id := 0
    trace_id := "11111111-1111-1111-1111-111111111111"
    scan_id := Jval.null
    client_id := Jval.null
    source := "n8n"
    event_type := "workflow.start"
    event_name := Jval.null
    status := "info"
    req := Jval.null
    res := Jval.null
    err := Jval.null
    meta := Jval.null
    duration_ms := none
    created_at := 0 }

/-- An error event created 10 minutes before reference time 0. -/
def errTenMin : Row := { baseRow with id := 1, event_type := "workflow.error", status := "error", created_at := -600 }

/-- An error event created 20 minutes before reference time 0. -/
def errTwentyMin : Row := { baseRow with id := 2, event_type := "workflow.error", status := "error", created_at := -1200 }

/-- C5 witness: with the default 15-minute window at reference time 0, the
10-minute-old error is returned and the 20-minute-old one is not. -/
theorem error_window_query_witness :
    errTenMin ∈ sw_event_log_errors_since [errTenMin, errTwentyMin] 0 15 ∧
    errTwentyMin ∉ sw_event_log_errors_since [errTenMin, errTwentyMin] 0 15 := by
  have h := error_window_query [errTenMin, errTwentyMin] 0 15
  exact ⟨h.2.2.2.1 errTenMin (by simp) (by decide) (by decide),
    h.2.2.2.2 errTwentyMin (by decide)⟩

/-! ### C4: timeline ordering (amended) and its tie-break counterexample -/

/-- C4 (amended): for every trace id, the Timeline View returns exactly the
events carrying that trace id, in non-decreasing `created_at` order; events
sharing a `created_at` are returned in an order the view does not fix by id
(the order key is `(trace_id, created_at)` only). -/
theorem timeline_ordering (store : List Row) (t : String) :
    (∀ r, r ∈ timelineFor store t ↔ r ∈ store ∧ r.trace_id = t) ∧
    (timelineFor store t).Sorted (fun a b : Row => a.created_at ≤ b.created_at) :=
  ⟨mem_timelineFor store t, timelineFor_sorted store t⟩

/-- Two rows of one trace with the same `created_at` and descending ids in
storage order. -/
def tieFirst : Row := { baseRow with id := 2, created_at := 100 }

/-- The later-stored row of the tie, with the smaller id. -/
def tieSecond : Row :=
  { baseRow with id := 1, event_type := "workflow.complete", created_at := 100 }

/-- C4 counterexample: on a store holding two events of the same trace with
equal `created_at` and ids 2 then 1, the Timeline View returns the id-2 event
before the id-1 event, so ties are not broken by insertion id ascending. -/
theorem timeline_tiebreak_counterexample :
    timelineFor [tieFirst, tieSecond] "11111111-1111-1111-1111-111111111111" =
      [tieFirst, tieSecond] ∧
    tieFirst.created_at = tieSecond.created_at ∧
    tieSecond.id < tieFirst.id := by
  refine ⟨by decide, rfl, by decide⟩

/-! ### C1: the append-only storage boundary -/

theorem sw_event_log_exec_mutation (st : TableStmt Row)
    (h : TableStmt.isMutation st = true) (s : List Row) :
    sw_event_log_exec st s = s := by
  cases st with
  | ins r => cases h
  | upd cond set => rfl
  | del cond => rfl

theorem sw_event_log_execList_mutations : ∀ (ops : List (TableStmt Row)),
    (∀ o ∈ ops, TableStmt.isMutation o = true) → ∀ s,
    sw_event_log_execList ops s = s
  | [], _, _ => rfl
  | o :: ops, h, s => by
      have h1 : sw_event_log_exec o s = s :=
        sw_event_log_exec_mutation o (h o (List.mem_cons_self o ops)) s
      show sw_event_log_execList ops (sw_event_log_exec o s) = s
      rw [h1]
      exact sw_event_log_execList_mutations ops
        (fun x hx => h x (List.mem_cons_of_mem o hx)) s

theorem sw_event_artifacts_exec_mutation (st : TableStmt Artifact)
    (h : TableStmt.isMutation st = true) (s : List Artifact) :
    sw_event_artifacts_exec st s = s := by
  cases st with
  | ins r => cases h
  | upd cond set => rfl
  | del cond => rfl

theorem sw_event_artifacts_execList_mutations : ∀ (ops : List (TableStmt Artifact)),
    (∀ o ∈ ops, TableStmt.isMutation o = true) → ∀ s,
    sw_event_artifacts_execList ops s = s
  | [], _, _ => rfl
  | o :: ops, h, s => by
      have h1 : sw_event_artifacts_exec o s = s :=
        sw_event_artifacts_exec_mutation o (h o (List.mem_cons_self o ops)) s
      show sw_event_artifacts_execList ops (sw_event_artifacts_exec o s) = s
      rw [h1]
      exact sw_event_artifacts_execList_mutations ops
        (fun x hx => h x (List.mem_cons_of_mem o hx)) s

/-- C1: any sequence of update or delete statements against the event ledger
or the artifact table is a no-op at the storage boundary (the rewrite rules
replace them with nothing), so every stored event and artifact re-reads with
fields identical to those originally written. -/
theorem append_only_storage (s : List Row) (r : Row)
    (ops : List (TableStmt Row)) (sa : List Artifact) (a : Artifact)
    (opsa : List (TableStmt Artifact)) (hr : r ∈ s) (ha : a ∈ sa)
    (hops : ∀ o ∈ ops, TableStmt.isMutation o = true)
    (hopsa : ∀ o ∈ opsa, TableStmt.isMutation o = true) :
    sw_event_log_execList ops s = s ∧
    r ∈ sw_event_log_execList ops s ∧
    sw_event_artifacts_execList opsa sa = sa ∧
    a ∈ sw_event_artifacts_execList opsa sa := by
  have h1 := sw_event_log_execList_mutations ops hops s
  have h2 := sw_event_artifacts_execList_mutations opsa hopsa sa
  exact ⟨h1, h1.symm ▸ hr, h2, h2.symm ▸ ha⟩

/-- A tampering attempt: update every row, then delete every row. -/
def tamperOps : List (TableStmt Row) :=
  [TableStmt.upd (fun _ => true) (fun r => { r with status := "tampered" }),
   TableStmt.del (fun _ => true)]

/-- A concrete artifact row. -/
def baseArtifact : Artifact :=
  { id := 0
    event_id := 1
    trace_id := "11111111-1111-1111-1111-111111111111"
    artifact_type := "payload"
    content_type := none
    storage_path := none
    data := Jval.null
    size_bytes := none
    created_at := 0 }

/-- A tampering attempt against the artifact table. -/
def tamperOpsArtifacts : List (TableStmt Artifact) :=
  [TableStmt.del (fun _ => true)]

/-- C1 witness: the concrete update-all and delete-all statements leave the
one-row ledger and one-row artifact table unchanged. -/
theorem append_only_storage_witness :
    sw_event_log_execList tamperOps [baseRow] = [baseRow] ∧
    baseRow ∈ sw_event_log_execList tamperOps [baseRow] ∧
    sw_event_artifacts_execList tamperOpsArtifacts [baseArtifact] = [baseArtifact] ∧
    baseArtifact ∈ sw_event_artifacts_execList tamperOpsArtifacts [baseArtifact] :=
  append_only_storage [baseRow] baseRow tamperOps [baseArtifact] baseArtifact
    tamperOpsArtifacts (List.mem_singleton.mpr rfl) (List.mem_singleton.mpr rfl)
    (by simp [tamperOps, TableStmt.isMutation])
    (by simp [tamperOpsArtifacts, TableStmt.isMutation])

/-! ### C9: row-level security (amended) and its counterexample -/

/-- C9 (amended): reads by unauthenticated or non-admin callers return an
empty result set — no error and no partial data; reads are granted by the
`admin_select` policy to authenticated callers with the admin claim (the
service role bypasses row security); only the service role can insert, any
other caller's insert fails with a row-level-security violation. -/
theorem rls_access (c : Caller) (store : List Row) (r : Row) :
    ((c ≠ Caller.service_role ∧ adminClaim c = false) →
      selectEvents c store = Except.ok []) ∧
    (adminClaim c = true → selectEvents c store = Except.ok store) ∧
    (c = Caller.service_role → insertEvent c r store = Except.ok (store ++ [r])) ∧
    (c ≠ Caller.service_role →
      insertEvent c r store = Except.error DbError.rlsViolation) := by
  refine ⟨?_, ?_, ?_, ?_⟩
  · intro h
    simp [selectEvents, h.1, h.2]
  · intro h
    simp [selectEvents, h]
  · intro h
    simp [insertEvent, h]
  · intro h
    simp [insertEvent, h]

/-- C9 counterexample: an unauthenticated read of a non-empty ledger returns
a successful empty result, not an authorization error. -/
theorem rls_read_counterexample :
    selectEvents Caller.anon [baseRow] = Except.ok [] ∧
    selectEvents Caller.anon [baseRow] ≠ Except.error DbError.rlsViolation ∧
    [baseRow] ≠ ([] : List Row) :=
  ⟨rfl, fun h => Except.noConfusion h, by decide⟩

/-- C9 witness: instantiated at the anonymous caller — the read yields the
empty result and the insert fails with the row-level-security violation. -/
theorem rls_access_witness :
    selectEvents Caller.anon [baseRow] = Except.ok [] ∧
    insertEvent Caller.anon baseRow [baseRow] =
      Except.error DbError.rlsViolation := by
  have h := rls_access Caller.anon [baseRow] baseRow
  exact ⟨h.1 ⟨by decide, by decide⟩, h.2.2.2 (by decide)⟩

/-! ### C7: the replay engine -/

theorem find?_decompose {α : Type} (p : α → Bool) :
    ∀ (l : List α) (x : α), l.find? p = some x →
    p x = true ∧ ∃ pre post, l = pre ++ x :: post ∧ ∀ e ∈ pre, p e = false
  | [], x, h => by cases h
  | a :: l, x, h => by
      by_cases ha : p a = true
      · rw [List.find?_cons_of_pos _ ha] at h
        cases h
        exact ⟨ha, [], l, rfl, by simp⟩
      · have ha2 : p a = false := by simpa using ha
        rw [List.find?_cons_of_neg _ (by simp [ha2])] at h
        obtain ⟨hx, pre, post, hl, hpre⟩ := find?_decompose p l x h
        refine ⟨hx, a :: pre, post, by simp [hl], ?_⟩
        intro e he
        rcases List.mem_cons.mp he with rfl | he
        · exact ha2
        · exact hpre e he

/-- C7: for every trace id handed to the replay engine — if the trace has no
events it fails with `NotFoundError`; if it has events but none carries a
non-null `req` it fails with `IncompleteTraceError` and dispatches no
outbound call; otherwise it re-issues the payload of the earliest timeline
event carrying a non-null `req` (every earlier timeline event carries null),
preserving the original trace id unchanged. -/
theorem replay_engine (store : List Row) (t : String) (target : String) :
    (timelineFor store t = [] →
      replay store t target = Except.error ReplayError.notFound ∧
      replayDispatches store t target = []) ∧
    (timelineFor store t ≠ [] →
      (∀ e ∈ timelineFor store t, e.req = Jval.null) →
      replay store t target = Except.error ReplayError.incompleteTrace ∧
      replayDispatches store t target = []) ∧
    (∀ root, (timelineFor store t).find? hasReqPayload = some root →
      replay store t target = Except.ok ⟨root.req, t, target⟩ ∧
      replayDispatches store t target = [⟨root.req, t, target⟩] ∧
      root ∈ timelineFor store t ∧ root.req ≠ Jval.null ∧
      ∃ pre post, timelineFor store t = pre ++ root :: post ∧
        ∀ e ∈ pre, e.req = Jval.null) := by
  refine ⟨?_, ?_, ?_⟩
  · intro h
    have he : (timelineFor store t).isEmpty = true := by simp [h]
    constructor
    · simp [replay, he]
    · simp [replayDispatches, replay, he]
  · intro h hnull
    have he : (timelineFor store t).isEmpty = false := by
      simpa [List.isEmpty_iff] using h
    have hf : (timelineFor store t).find? hasReqPayload = none := by
      rw [List.find?_eq_none]
      intro e hee
      simp [hasReqPayload, hnull e hee]
    constructor
    · simp [replay, he, hf]
    · simp [replayDispatches, replay, he, hf]
  · intro root hf
    obtain ⟨hp, pre, post, hl, hpre⟩ := find?_decompose hasReqPayload _ root hf
    have he : (timelineFor store t).isEmpty = false := by
      rw [hl]
      simp
    refine ⟨by simp [replay, he, hf], by simp [replayDispatches, replay, he, hf],
      ?_, by simpa [hasReqPayload] using hp, pre, post, hl, ?_⟩
    · rw [hl]
      simp
    · intro e hee
      have := hpre e hee
      simpa [hasReqPayload] using this

/-- The single event of a trace that carries no `req` payload (Scenario D). -/
def noReqEvent : Row :=
  { baseRow with id := 9, trace_id := "44444444-4444-4444-4444-444444444444" }

/-- C7 witness: replay on the empty store fails with the not-found error,
and replay on the trace whose only event carries no `req` payload fails with
the incomplete-trace error and dispatches nothing. -/
theorem replay_engine_witness :
    replay [] "44444444-4444-4444-4444-444444444444" "staging" =
      Except.error ReplayError.notFound ∧
    replay [noReqEvent] "44444444-4444-4444-4444-444444444444" "staging" =
      Except.error ReplayError.incompleteTrace ∧
    replayDispatches [noReqEvent] "44444444-4444-4444-4444-444444444444"
      "staging" = [] := by
  have h1 := (replay_engine [] "44444444-4444-4444-4444-444444444444"
    "staging").1 (by decide)
  have h2 := (replay_engine [noReqEvent] "44444444-4444-4444-4444-444444444444"
    "staging").2.1 (by decide) (by decide)
  exact ⟨h1.1, h2.1, h2.2⟩

/-! ### C8: the contract verifier -/

/-- C8: the terminal-event check passes exactly when the trace holds exactly
one terminal event (zero or several fail it); without an explicit fail-fast
request the verifier produces all nine check results — the terminal check in
fourth position — each an independent boolean carrying a non-empty diagnostic
message. -/
theorem contract_verifier (store : List Row) (t : String) (fx : Bool) :
    (runChecks store t fx).length = 9 ∧
    verifyTrace store t fx false = runChecks store t fx ∧
    (runChecks store t fx)[3]? = some (checkTerminal (timelineFor store t)) ∧
    ((checkTerminal (timelineFor store t)).passed = true ↔
      terminalCount (timelineFor store t) = 1) ∧
    (∀ c ∈ runChecks store t fx, c.message ≠ "") := by
  refine ⟨rfl, by simp [verifyTrace], rfl, ?_, ?_⟩
  · simp [checkTerminal]
  · intro c hc
    simp only [runChecks, List.mem_cons, List.not_mem_nil, or_false] at hc
    rcases hc with rfl | rfl | rfl | rfl | rfl | rfl | rfl | rfl | rfl <;>
      simp [checkTraceExists, checkWorkflowStart, checkActivity, checkTerminal,
        checkErrMessages, checkScanIdConsistent, checkTemporalOrder,
        checkFixtureMode, checkIngestionHealth]

/-- C8 witness: on the two-event trace with exactly one terminal event the
fourth check passes, and the no-fail-fast run reports all nine results. -/
theorem contract_verifier_witness :
    (checkTerminal (timelineFor [tieFirst, tieSecond]
      "11111111-1111-1111-1111-111111111111")).passed = true ∧
    (verifyTrace [tieFirst, tieSecond] "11111111-1111-1111-1111-111111111111"
      false false).length = 9 := by
  have h := contract_verifier [tieFirst, tieSecond]
    "11111111-1111-1111-1111-111111111111" false
  exact ⟨h.2.2.2.1.mpr (by decide), by rw [h.2.1]; exact h.1⟩

end SecureWatch
